import Mathlib

/-!
Verification development for the Charo live trading bot.  The definitions
below are a shallow embedding of src/livetrading/LiveTrader.py and of the
orchestration loop in src/main.py: position reconciliation (trade,
close_position, trade_report), the stop monitor inside on_success, the
tick to bar aggregation inside on_success, the setup_history bootstrap
loop, and the market gate in the constructor.  Prices and profits are
embedded as rationals, times as natural numbers (seconds), and the broker
client as a function from order size to either a fill or a raised error.
-/

namespace Charo

/-- Realized order fill as returned by the broker client (create_order with
ret set): fill time, filled units, fill price and realized profit or loss,
the pl field read by trade_report. -/
structure Fill where
  time : Nat
  units : Int
  price : ℚ
  pl : ℚ

/-- Mutable trader state relevant to reconciliation: the fields _position
and _profits of LiveTrader.  The running total _profit is recomputed as the
sum of _profits on every trade_report, so it is derived and not stored. -/
structure TraderState where
  position : Int
  profits : List ℚ

/-- Result of one reconciliation or orchestration step: the updated trader
state, the sizes of the orders submitted to the broker during the step, and
the exception surfaced to the caller, if any.  When an exception is raised
the state keeps every mutation that happened before the raise, as in
Python. -/
structure StepResult where
  state : TraderState
  orders : List Int
  err : Option String

/-- LiveTrader.trade (src/livetrading/LiveTrader.py lines 150-179) together
with trade_report (lines 192-202).  The strategy signal d is the last value
of the position column of _data; broker abstracts create_order, which
either returns a fill or raises.  A raise aborts the branch before the
position assignment, leaving the state as it was before the call; on a fill
trade_report appends the realized pl to _profits and then the position is
assigned. -/
def trade (broker : Int → Except String Fill) (u d : Int) (s : TraderState) : StepResult :=
  if d = 1 then
    if s.position = 0 then
      match broker u with
      | .error e => ⟨s, [u], some e⟩
      | .ok f => ⟨⟨1, s.profits ++ [f.pl]⟩, [u], none⟩
    else if s.position = -1 then
      match broker (u * 2) with
      | .error e => ⟨s, [u * 2], some e⟩
      | .ok f => ⟨⟨1, s.profits ++ [f.pl]⟩, [u * 2], none⟩
    else ⟨⟨1, s.profits⟩, [], none⟩
  else if d = -1 then
    if s.position = 0 then
      match broker (-u) with
      | .error e => ⟨s, [-u], some e⟩
      | .ok f => ⟨⟨-1, s.profits ++ [f.pl]⟩, [-u], none⟩
    else if s.position = 1 then
      match broker (-(u * 2)) with
      | .error e => ⟨s, [-(u * 2)], some e⟩
      | .ok f => ⟨⟨-1, s.profits ++ [f.pl]⟩, [-(u * 2)], none⟩
    else ⟨⟨-1, s.profits⟩, [], none⟩
  else if d = 0 then
    if s.position = 1 then
      match broker (-u) with
      | .error e => ⟨s, [-u], some e⟩
      | .ok f => ⟨⟨0, s.profits ++ [f.pl]⟩, [-u], none⟩
    else if s.position = -1 then
      match broker u with
      | .error e => ⟨s, [u], some e⟩
      | .ok f => ⟨⟨0, s.profits ++ [f.pl]⟩, [u], none⟩
    else ⟨⟨0, s.profits⟩, [], none⟩
  else ⟨s, [], none⟩

/-- LiveTrader.close_position (lines 181-190): when a position is held,
submit the offsetting order, append its realized pl and reset the position
to 0; when already flat, do nothing. -/
def close_position (broker : Int → Except String Fill) (u : Int) (s : TraderState) : StepResult :=
  if s.position = 0 then ⟨s, [], none⟩
  else
    match broker (-(s.position * u)) with
    | .error e => ⟨s, [-(s.position * u)], some e⟩
    | .ok f => ⟨⟨0, s.profits ++ [f.pl]⟩, [-(s.position * u)], none⟩

/-- run_live (src/main.py lines 127-146): the orchestration loop writes the
sentiment recommendation directly into the _position attribute; no order is
submitted and no fill occurs. -/
def applyReco (reco : String) (s : TraderState) : StepResult :=
  if reco == "buy" then ⟨⟨1, s.profits⟩, [], none⟩
  else if reco == "sell" then ⟨⟨-1, s.profits⟩, [], none⟩
  else ⟨⟨0, s.profits⟩, [], none⟩

/-- Events that write the trader position in this system: a strategy signal
handled by trade, a flatten request handled by close_position, and one pass
of the recommendation loop of run_live. -/
inductive Ev where
  | sig (broker : Int → Except String Fill) (d : Int)
  | flat (broker : Int → Except String Fill)
  | reco (r : String)

/-- One position-writing step of the system. -/
def step (u : Int) (e : Ev) (s : TraderState) : StepResult :=
  match e with
  | .sig broker d => trade broker u d s
  | .flat broker => close_position broker u s
  | .reco r => applyReco r s

/-- Reason a stop fired, one per branch of the chain in on_success. -/
inductive StopReason where
  | deadline
  | lossFloor
  | profitCeiling
deriving DecidableEq

/-- Guard of the first stop branch (line 107): the stop datetime is set and
the tick time has reached it.  A datetime value is always truthy in Python,
so only None disables this branch. -/
def ddl_hit (sd : Option Nat) (t : Nat) : Bool :=
  match sd with
  | none => false
  | some d => decide (d ≤ t)

/-- Guard of the second stop branch (line 111): stop_loss is truthy, that
is set and nonzero, and the running profit is strictly below it. -/
def sl_hit (sl : Option ℚ) (profit : ℚ) : Bool :=
  match sl with
  | none => false
  | some v => decide (v ≠ 0) && decide (profit < v)

/-- Guard of the third stop branch (line 115): stop_profit is truthy, that
is set and nonzero, and the running profit is strictly above it. -/
def sp_hit (sp : Option ℚ) (profit : ℚ) : Bool :=
  match sp with
  | none => false
  | some v => decide (v ≠ 0) && decide (v < profit)

/-- Stop evaluation of on_success (lines 104-122): the if/elif chain stops
with the first branch whose guard holds, and at most one branch runs. -/
def check (sd : Option Nat) (sl sp : Option ℚ) (t : Nat) (profit : ℚ) : Option StopReason :=
  if ddl_hit sd t then some .deadline
  else if sl_hit sl profit then some .lossFloor
  else if sp_hit sp profit then some .profitCeiling
  else none

/-- Modelled from the spec: stop evaluation as the spec words it, with
non-strict comparisons, profit at or below the floor and profit at or
above the ceiling.  Kept separate from check so the two can be compared. -/
def specCheck (sd : Option Nat) (sl sp : Option ℚ) (t : Nat) (profit : ℚ) : Option StopReason :=
  if ddl_hit sd t then some .deadline
  else if (match sl with | none => false | some v => decide (profit ≤ v)) then some .lossFloor
  else if (match sp with | none => false | some v => decide (v ≤ profit)) then some .profitCeiling
  else none

/-- Last mid price among the buffered ticks that fall in resample bin k,
bins of length L closed on the left, as the pandas last aggregation
produces per bin. -/
def lastInBin (L k : Nat) (ticks : List (Nat × ℚ)) : Option ℚ :=
  ((ticks.filter (fun p => p.1 / L == k)).map Prod.snd).getLast?

/-- Forward fill over the listed bins: an empty bin takes the value of the
previous bin, as pandas ffill does after the last aggregation; each bin is
labelled by its right edge. -/
def ffillBins (L : Nat) (ticks : List (Nat × ℚ)) (carry : ℚ) : List Nat → List (Nat × ℚ)
  | [] => []
  | k :: rest =>
    match lastInBin L k ticks with
    | some v => ((k + 1) * L, v) :: ffillBins L ticks v rest
    | none => ((k + 1) * L, carry) :: ffillBins L ticks carry rest

/-- Bin indices touched by the buffer, from the bin of the first tick to
the bin of the last tick inclusive: pandas resample spans the whole index
range, including empty bins in between. -/
def binLabels (b0 bn : Nat) : List Nat :=
  (List.range (bn + 1 - b0)).map (fun i => b0 + i)

/-- Embedding of tick_data.resample(bar_length, label=right).last().ffill()
from line 139: the buffered ticks bucketed into bars of length L over the
spanned range, labelled by the right bin edge, empty bins forward filled. -/
def resampleBars (L : Nat) (ticks : List (Nat × ℚ)) : List (Nat × ℚ) :=
  match ticks.head?, ticks.getLast? with
  | some t0, some tn => ffillBins L ticks 0 (binLabels (t0.1 / L) (tn.1 / L))
  | _, _ => []

/-- Bar aggregation state: _last_tick, the index of the newest closed bar
of _raw_data, and the tick buffer _tick_data. -/
structure AggState where
  last_tick : Nat
  tick_data : List (Nat × ℚ)

/-- Tick handling part of on_success (lines 124-145): append the tick to
the buffer; when the new tick is at least one bar length past _last_tick,
append the resampled buffer minus its final, still open, bin to _raw_data,
keep only the newest tick in the buffer, and advance _last_tick to the
index of the newest appended bar.  Returns the bars appended by the call. -/
def on_success_bars (L t : Nat) (m : ℚ) (s : AggState) : AggState × List (Nat × ℚ) :=
  let buf := s.tick_data ++ [(t, m)]
  if L ≤ t - s.last_tick then
    let bars := (resampleBars L buf).dropLast
    let newLast := match bars.getLast? with
      | some b => b.1
      | none => s.last_tick
    (⟨newLast, [(t, m)]⟩, bars)
  else (⟨s.last_tick, buf⟩, [])

/-- Iterations of the setup_history while loop (lines 71-99), with fuel to
keep the recursion well founded in the model.  nowAt i is the UTC clock at
iteration i; lastBarAt now days is the index of the newest bar obtained by
fetching days of history at time now, resampling and dropping the final
bar.  The loop breaks when the newest bar is within one bar length L of
now; otherwise it iterates again with the same, never expanded, days
argument. -/
def setupLoopAux (L days : Nat) (nowAt : Nat → Nat) (lastBarAt : Nat → Nat → Nat) (i fuel : Nat) : Option Nat :=
  match fuel with
  | 0 => none
  | f + 1 =>
    let now := nowAt i
    let lb := lastBarAt now days
    if now - lb < L then some lb
    else setupLoopAux L days nowAt lastBarAt (i + 1) f

/-- Weekend test of the LiveTrader constructor (lines 34-38): Saturday, or
Sunday before 21:00 UTC. -/
def marketClosed (weekday hour : Nat) : Bool :=
  weekday == 5 || (weekday == 6 && decide (hour < 21))

/-- Market gate of the LiveTrader constructor (lines 31-41): raise the
weekend message when marketClosed holds, otherwise proceed with the
session.  The decision is a function of the wall clock only. -/
def initMarketCheck (weekday hour : Nat) : Except String Unit :=
  if marketClosed weekday hour then .error ("Sorry, markets are closed (weekend).") else .ok ()

/-- Modelled from the spec: the market open confirmation the spec
describes, recent tick data exists within the last short window of about
one minute.  The source checks the wall clock instead, so this definition
is kept for comparison with initMarketCheck. -/
def specMarketOpen (secondsSinceLastTick : Nat) : Bool :=
  decide (secondsSinceLastTick ≤ 60)

/-- Broker that fills every order with the given fill. -/
def brokerOk (f : Fill) : Int → Except String Fill := fun _ => .ok f

/-- Broker that rejects every order with the given message. -/
def brokerErr (e : String) : Int → Except String Fill := fun _ => .error e

/-- Sample fill used to instantiate theorems at concrete inputs. -/
def fill0 : Fill := ⟨0, 100000, 1, 0⟩

theorem ffillBins_length (L : Nat) (ticks : List (Nat × ℚ)) (bins : List Nat) :
    ∀ carry, (ffillBins L ticks carry bins).length = bins.length := by
  induction bins with
  | nil => intro carry; rfl
  | cons k rest ih =>
    intro carry
    simp only [ffillBins]
    cases h : lastInBin L k ticks <;> simp [h, ih]

theorem setupLoop_stale_none (L days : Nat) (nowAt : Nat → Nat) (lastBarAt : Nat → Nat → Nat)
    (hstale : ∀ i, L ≤ nowAt i - lastBarAt (nowAt i) days) :
    ∀ fuel i, setupLoopAux L days nowAt lastBarAt i fuel = none := by
  intro fuel
  induction fuel with
  | zero => intro i; rfl
  | succ f ih =>
    intro i
    simp only [setupLoopAux]
    rw [if_neg (by have := hstale i; omega)]
    exact ih (i + 1)

theorem trade_position_cases (broker : Int → Except String Fill) (u d : Int) (s : TraderState) :
    (trade broker u d s).state.position = 1 ∨ (trade broker u d s).state.position = -1 ∨
    (trade broker u d s).state.position = 0 ∨ (trade broker u d s).state.position = s.position := by
  unfold trade
  split_ifs <;>
    first
      | (cases broker u <;> simp)
      | (cases broker (u * 2) <;> simp)
      | (cases broker (-u) <;> simp)
      | (cases broker (-(u * 2)) <;> simp)
      | simp

theorem close_position_cases (broker : Int → Except String Fill) (u : Int) (s : TraderState) :
    (close_position broker u s).state.position = 0 ∨
    (close_position broker u s).state.position = s.position := by
  unfold close_position
  split_ifs with h
  · simp [h]
  · cases broker (-(s.position * u)) <;> simp

theorem applyReco_position_cases (r : String) (s : TraderState) :
    (applyReco r s).state.position = 1 ∨ (applyReco r s).state.position = -1 ∨
    (applyReco r s).state.position = 0 := by
  unfold applyReco
  split_ifs <;> simp

/-- C1: for every desired position d and current position c in the set
with -1, 0 and 1, trade submits exactly one order of (d - c) times the
unit size when d differs from c, and none otherwise; in particular a
direct long to short or short to long transition is one single order of
twice the unit size in the appropriate direction, never two separate
orders. -/
theorem trade_issues_single_delta_order (broker : Int → Except String Fill) (u d : Int)
    (s : TraderState) (hd : d = -1 ∨ d = 0 ∨ d = 1)
    (hs : s.position = -1 ∨ s.position = 0 ∨ s.position = 1) :
    (trade broker u d s).orders = if d = s.position then [] else [(d - s.position) * u] := by
  rcases hd with hd | hd | hd <;> subst hd <;> rcases hs with hc | hc | hc
  · simp [trade, hc]
  · cases hb : broker (-u) <;> simp [trade, hc, hb] <;> ring
  · cases hb : broker (-(u * 2)) <;> simp [trade, hc, hb] <;> ring
  · cases hb : broker u <;> simp [trade, hc, hb] <;> ring
  · simp [trade, hc]
  · cases hb : broker (-u) <;> simp [trade, hc, hb] <;> ring
  · cases hb : broker (u * 2) <;> simp [trade, hc, hb] <;> ring
  · cases hb : broker u <;> simp [trade, hc, hb] <;> ring
  · simp [trade, hc]

/-- Witness for C1: from short to long with unit size 100000, a single
order of 200000 units. -/
theorem trade_issues_single_delta_order_witness :
    (trade (brokerOk fill0) 100000 1 ⟨-1, []⟩).orders =
      if (1 : Int) = -1 then [] else [(1 - (-1)) * 100000] :=
  trade_issues_single_delta_order (brokerOk fill0) 100000 1 ⟨-1, []⟩
    (Or.inr (Or.inr rfl)) (Or.inl rfl)

/-- C3: when the broker call of a reconciliation step fails, trade leaves
the state untouched, position and ledger alike, and surfaces the failure to
the caller; the position advances to the desired value, with the realized
profit or loss appended to the ledger, only after a confirmed fill. -/
theorem trade_fill_gating (broker : Int → Except String Fill) (u d : Int) (s : TraderState)
    (hd : d = -1 ∨ d = 0 ∨ d = 1) (hs : s.position = -1 ∨ s.position = 0 ∨ s.position = 1)
    (hne : d ≠ s.position) :
    (∀ e, broker ((d - s.position) * u) = .error e →
      (trade broker u d s).state = s ∧ (trade broker u d s).err = some e) ∧
    (∀ f, broker ((d - s.position) * u) = .ok f →
      (trade broker u d s).state.position = d ∧
      (trade broker u d s).state.profits = s.profits ++ [f.pl] ∧
      (trade broker u d s).err = none) := by
  rcases hd with hd | hd | hd <;> subst hd <;> rcases hs with hc | hc | hc
  · exact absurd hc.symm hne
  · constructor
    · intro e hE
      rw [hc, show ((-1 : Int) - 0) * u = -u by ring] at hE
      simp [trade, hc, hE]
    · intro f hF
      rw [hc, show ((-1 : Int) - 0) * u = -u by ring] at hF
      simp [trade, hc, hF]
  · constructor
    · intro e hE
      rw [hc, show ((-1 : Int) - 1) * u = -(u * 2) by ring] at hE
      simp [trade, hc, hE]
    · intro f hF
      rw [hc, show ((-1 : Int) - 1) * u = -(u * 2) by ring] at hF
      simp [trade, hc, hF]
  · constructor
    · intro e hE
      rw [hc, show ((0 : Int) - -1) * u = u by ring] at hE
      simp [trade, hc, hE]
    · intro f hF
      rw [hc, show ((0 : Int) - -1) * u = u by ring] at hF
      simp [trade, hc, hF]
  · exact absurd hc.symm hne
  · constructor
    · intro e hE
      rw [hc, show ((0 : Int) - 1) * u = -u by ring] at hE
      simp [trade, hc, hE]
    · intro f hF
      rw [hc, show ((0 : Int) - 1) * u = -u by ring] at hF
      simp [trade, hc, hF]
  · constructor
    · intro e hE
      rw [hc, show ((1 : Int) - -1) * u = u * 2 by ring] at hE
      simp [trade, hc, hE]
    · intro f hF
      rw [hc, show ((1 : Int) - -1) * u = u * 2 by ring] at hF
      simp [trade, hc, hF]
  · constructor
    · intro e hE
      rw [hc, show ((1 : Int) - 0) * u = u by ring] at hE
      simp [trade, hc, hE]
    · intro f hF
      rw [hc, show ((1 : Int) - 0) * u = u by ring] at hF
      simp [trade, hc, hF]
  · exact absurd hc.symm hne

/-- Witness for C3: a broker that rejects every order leaves the flat state
unchanged and surfaces the rejection. -/
theorem trade_fill_gating_witness :
    (trade (brokerErr ("REJECT")) 100000 1 ⟨0, []⟩).state = ⟨0, []⟩ ∧
    (trade (brokerErr ("REJECT")) 100000 1 ⟨0, []⟩).err = some ("REJECT") :=
  (trade_fill_gating (brokerErr ("REJECT")) 100000 1 ⟨0, []⟩ (Or.inr (Or.inr rfl))
    (Or.inr (Or.inl rfl)) (by decide)).1 ("REJECT") rfl

/-- C8: reconciling to the position already held issues no order, and
close_position is idempotent: with a filling broker, starting from a held
position the first call issues exactly one nonzero order and the second
call issues none; starting flat both calls issue nothing; the second call
is never an error. -/
theorem flatten_idempotent (broker : Int → Except String Fill) (u : Int) (s : TraderState)
    (f : Fill) (hs : s.position = -1 ∨ s.position = 0 ∨ s.position = 1) (hu : u ≠ 0)
    (hok : ∀ n, broker n = .ok f) :
    (trade broker u s.position s).orders = [] ∧
    (close_position broker u s).err = none ∧
    (close_position broker u (close_position broker u s).state).orders = [] ∧
    (close_position broker u (close_position broker u s).state).err = none ∧
    (s.position = 0 → (close_position broker u s).orders = []) ∧
    (s.position ≠ 0 → ∃ z, (close_position broker u s).orders = [z] ∧ z ≠ 0) := by
  rcases hs with hc | hc | hc <;> simp [trade, close_position, hc, hok, hu]

/-- Witness for C8: flattening a long position of one unit with unit size
100000 issues one order the first time and none the second time. -/
theorem flatten_idempotent_witness :
    (trade (brokerOk fill0) 100000 (1 : Int) ⟨1, []⟩).orders = [] ∧
    (close_position (brokerOk fill0) 100000 ⟨1, []⟩).err = none ∧
    (close_position (brokerOk fill0) 100000
      (close_position (brokerOk fill0) 100000 ⟨1, []⟩).state).orders = [] ∧
    (close_position (brokerOk fill0) 100000
      (close_position (brokerOk fill0) 100000 ⟨1, []⟩).state).err = none ∧
    ((⟨1, []⟩ : TraderState).position = 0 →
      (close_position (brokerOk fill0) 100000 ⟨1, []⟩).orders = []) ∧
    ((⟨1, []⟩ : TraderState).position ≠ 0 →
      ∃ z, (close_position (brokerOk fill0) 100000 ⟨1, []⟩).orders = [z] ∧ z ≠ 0) :=
  flatten_idempotent (brokerOk fill0) 100000 ⟨1, []⟩ fill0 (Or.inr (Or.inr rfl))
    (by decide) (fun n => rfl)

/-- C5 counterexample: run_live writes the sentiment recommendation
directly into the position attribute: applying the sell recommendation to
a long state flips the position to -1 although no order was submitted and
no fill occurred, so the position is not mutated only by the Reconciler
after a confirmed order fill. -/
theorem position_written_outside_reconciler :
    (⟨1, []⟩ : TraderState).position = 1 ∧
    (applyReco ("sell") ⟨1, []⟩).state.position = -1 ∧
    (applyReco ("sell") ⟨1, []⟩).orders = [] := by
  refine ⟨rfl, ?_, ?_⟩ <;> rfl

/-- C5 amended: the position stays a signed integer in the set with -1, 0
and 1 under every position-writing step of the system, but its writers are
trade, close_position and also the run_live recommendation loop, which
assigns it directly without any order or fill. -/
theorem position_range_invariant (u : Int) (e : Ev) (s : TraderState)
    (hs : s.position = -1 ∨ s.position = 0 ∨ s.position = 1) :
    (step u e s).state.position = -1 ∨ (step u e s).state.position = 0 ∨
      (step u e s).state.position = 1 := by
  cases e with
  | sig broker d =>
    rcases trade_position_cases broker u d s with h | h | h | h
    · exact Or.inr (Or.inr h)
    · exact Or.inl h
    · exact Or.inr (Or.inl h)
    · rw [show step u (Ev.sig broker d) s = trade broker u d s from rfl, h]
      exact hs
  | flat broker =>
    rcases close_position_cases broker u s with h | h
    · exact Or.inr (Or.inl h)
    · rw [show step u (Ev.flat broker) s = close_position broker u s from rfl, h]
      exact hs
  | reco r =>
    rcases applyReco_position_cases r s with h | h | h
    · exact Or.inr (Or.inr h)
    · exact Or.inl h
    · exact Or.inr (Or.inl h)

/-- Witness for C5: one recommendation step from the flat state lands in
the allowed range. -/
theorem position_range_invariant_witness :
    (step 100000 (Ev.reco ("buy")) ⟨0, []⟩).state.position = -1 ∨
    (step 100000 (Ev.reco ("buy")) ⟨0, []⟩).state.position = 0 ∨
    (step 100000 (Ev.reco ("buy")) ⟨0, []⟩).state.position = 1 :=
  position_range_invariant 100000 (Ev.reco ("buy")) ⟨0, []⟩ (Or.inr (Or.inl rfl))

/-- C2 counterexample: with deadline 10, loss floor -100 and profit
ceiling 200 all configured, at tick time 5 the code stops neither when the
profit equals the floor nor when it equals the ceiling, while the claimed
predicates, profit at or below the floor and profit at or above the
ceiling, both demand a stop reason there. -/
theorem stop_boundary_counterexample :
    (check (some 10) (some (-100)) (some 200) 5 (-100) = none ∧
      specCheck (some 10) (some (-100)) (some 200) 5 (-100) = some .lossFloor) ∧
    (check (some 10) (some (-100)) (some 200) 5 200 = none ∧
      specCheck (some 10) (some (-100)) (some 200) 5 200 = some .profitCeiling) := by
  decide

/-- C2 amended: with all three stops configured with nonzero bounds, the
branches are evaluated in priority order, deadline reached first, then
profit strictly below the loss floor, then profit strictly above the
ceiling; the first guard that holds wins and at most one reason is
reported per check. -/
theorem stop_priority_first_match (d : Nat) (lv pv : ℚ) (t : Nat) (pr : ℚ)
    (hl : lv ≠ 0) (hp : pv ≠ 0) :
    (check (some d) (some lv) (some pv) t pr = some .deadline ↔ d ≤ t) ∧
    (check (some d) (some lv) (some pv) t pr = some .lossFloor ↔ ¬ d ≤ t ∧ pr < lv) ∧
    (check (some d) (some lv) (some pv) t pr = some .profitCeiling ↔
      ¬ d ≤ t ∧ ¬ pr < lv ∧ pv < pr) ∧
    (check (some d) (some lv) (some pv) t pr = none ↔
      ¬ d ≤ t ∧ ¬ pr < lv ∧ ¬ pv < pr) := by
  by_cases h1 : d ≤ t <;> by_cases h2 : pr < lv <;> by_cases h3 : pv < pr <;>
    simp [check, ddl_hit, sl_hit, sp_hit, h1, h2, h3, hl, hp]

/-- Witness for C2: the stop priority scenario of the spec, deadline 10,
floor -100, ceiling 200, profit -150 at time 9, reports the loss floor. -/
theorem stop_priority_first_match_witness :
    check (some 10) (some (-100)) (some 200) 9 (-150) = some .lossFloor :=
  (stop_priority_first_match 10 (-100) 200 9 (-150) (by decide) (by decide)).2.1.mpr
    (by decide)

/-- C9: a loss floor or a profit ceiling configured with the value 0 is
falsy, so the corresponding branch is skipped for every tick time and
every cumulative profit, exactly as if the field had been left absent. -/
theorem stop_zero_config_skipped (sd : Option Nat) (sl sp : Option ℚ) (t : Nat) (pr : ℚ) :
    check sd (some 0) sp t pr = check sd none sp t pr ∧
    check sd sl (some 0) t pr = check sd sl none t pr := by
  constructor <;> simp [check, sl_hit, sp_hit]

/-- C4 counterexample: with bar length 2, newest closed bar at index 0 and
one buffered tick at time 1, the tick arriving at time 7 triggers a flush
that appends three bars in one single call, the empty intervals forward
filled, refuting that at most one closed bar is appended per ingest
call. -/
theorem multi_bar_catchup_counterexample :
    ¬ ((on_success_bars 2 7 2 ⟨0, [(1, 1)]⟩).2.length ≤ 1) := by
  decide

/-- C4 amended: whenever the flush triggers, the number of bars appended
by the single call equals the number of complete bar boundaries between
the first buffered tick and the new tick, so after a gap of several bar
lengths one call catches up several bars at once. -/
theorem ingest_catchup_count (L t last_tick t0 : Nat) (m m0 : ℚ) (rest : List (Nat × ℚ))
    (htrig : L ≤ t - last_tick) :
    (on_success_bars L t m ⟨last_tick, (t0, m0) :: rest⟩).2.length = t / L - t0 / L := by
  have hhead : (((t0, m0) :: rest) ++ [(t, m)]).head? = some (t0, m0) := rfl
  have hlast : (((t0, m0) :: rest) ++ [(t, m)]).getLast? = some (t, m) :=
    List.getLast?_concat _
  simp only [on_success_bars, if_pos htrig]
  simp only [resampleBars, hhead, hlast]
  rw [List.length_dropLast, ffillBins_length, binLabels]
  simp
  omega

/-- Witness for C4: the concrete flush at time 7 with bar length 2 appends
three bars. -/
theorem ingest_catchup_count_witness :
    (on_success_bars 2 7 2 ⟨0, [(1, 1)]⟩).2.length = 7 / 2 - 1 / 2 :=
  ingest_catchup_count 2 7 0 1 2 1 [] (by decide)

/-- C6 counterexample: on a concrete stale feed, newest bar stuck at index
0 while the clock reads 1000 and the bar length is 10, the bootstrap loop
returns within no number of iterations at all, so its retries are not
bounded by any maximum retry count and it runs forever on a genuinely
stale feed. -/
theorem setup_history_no_retry_bound :
    ¬ ∃ fuel, (setupLoopAux 10 1 (fun _ => 1000) (fun _ _ => 0) 0 fuel).isSome := by
  rintro ⟨fuel, hf⟩
  rw [setupLoop_stale_none 10 1 (fun _ => 1000) (fun _ _ => 0)
    (fun i => by simp) fuel 0] at hf
  simp at hf

/-- C6 amended: the setup_history loop refetches with the same, never
expanded, lookback argument and stops only once the newest bar is within
one bar length of now; on a feed whose newest bar always lags by at least
one bar length the loop never finishes, whatever iteration budget it is
given. -/
theorem setup_history_unbounded_on_stale_feed (L days : Nat) (nowAt : Nat → Nat)
    (lastBarAt : Nat → Nat → Nat)
    (hstale : ∀ i, L ≤ nowAt i - lastBarAt (nowAt i) days) (fuel i : Nat) :
    setupLoopAux L days nowAt lastBarAt i fuel = none :=
  setupLoop_stale_none L days nowAt lastBarAt hstale fuel i

/-- Witness for C6: five iterations on the concrete stale feed produce no
result. -/
theorem setup_history_unbounded_on_stale_feed_witness :
    setupLoopAux 10 1 (fun _ => 1000) (fun _ _ => 0) 0 5 = none :=
  setup_history_unbounded_on_stale_feed 10 1 (fun _ => 1000) (fun _ _ => 0)
    (fun i => by simp) 5 0

/-- C7 counterexample: on a Wednesday noon the gate lets the session start
although the newest tick is an hour old, and on a Saturday noon it raises
although a tick arrived this second, so the gate is a wall clock weekend
test and does not confirm that recent tick data exists within a short
recent window. -/
theorem market_gate_ignores_ticks :
    initMarketCheck 2 12 = .ok () ∧ specMarketOpen 3600 = false ∧
    initMarketCheck 5 12 = .error ("Sorry, markets are closed (weekend).") ∧
    specMarketOpen 0 = true :=
  ⟨rfl, rfl, rfl, rfl⟩

/-- C7 amended: before streaming begins the constructor checks the UTC
wall clock and raises the descriptive weekend message exactly when it is
Saturday, or Sunday before 21:00 UTC; recent tick data is not consulted. -/
theorem market_gate_weekend_rule (weekday hour : Nat) :
    initMarketCheck weekday hour = .error ("Sorry, markets are closed (weekend).") ↔
      (weekday = 5 ∨ (weekday = 6 ∧ hour < 21)) := by
  have hiff : marketClosed weekday hour = true ↔
      (weekday = 5 ∨ (weekday = 6 ∧ hour < 21)) := by
    simp [marketClosed]
  rw [← hiff]
  unfold initMarketCheck
  cases hb : marketClosed weekday hour <;> simp [hb]

end Charo
